import Mathlib

/-!
Verification of the TD Sequential (TomDeMark Sequential) indicator engine
from `poornull/indicators/tomdemark_sequential.py`.

Modelling choices:
* Prices and dates are integers.  The source stores them as floating-point
  numbers, but every operation the engine performs on a price is an order
  comparison, a maximum or a minimum, so any linearly ordered numeric type is
  a faithful model and keeps every definition decidable.
* A pandas `DataFrame` is modelled as the list of its column names together
  with the list of its bars.  A `NaN` price level is modelled as `Option.none`;
  a comparison against `none` is `false`, matching IEEE comparisons with NaN.
* The per-bar output row of the source is pre-initialised to
  phase = NONE / counters = 0 / levels = NaN and then selectively overwritten
  by `df.at[...]` assignments; the model builds each row the same way,
  starting from `defaultRow`.
-/

/-- One OHLC bar.  `open` is a Lean keyword, so the open price is `openPrice`;
the scan never reads it (only the column validation mentions it), exactly as in
the source. -/
structure Bar where
  date : Int
  openPrice : Int
  high : Int
  low : Int
  close : Int
  deriving DecidableEq, Repr

/-- Placeholder bar used as the default of `List.getD`; every lookup the scan
performs is in bounds, so it is never actually read. -/
def dummyBar : Bar := ⟨0, 0, 0, 0, 0⟩

/-- The phases of the indicator (`TomDemarkSequentialPhase` in the source). -/
inductive TomDemarkSequentialPhase where
  | NONE
  | BUY_SETUP
  | SELL_SETUP
  | BUY_COUNTDOWN
  | SELL_COUNTDOWN
  | BUY_SETUP_PERFECT
  | SELL_SETUP_PERFECT
  deriving DecidableEq, Repr

/-- The mutable scan state of the source loop: `current_phase`, `setup_count`,
`countdown_count`, `support_price`, `resistance_price`. -/
structure TDState where
  currentPhase : TomDemarkSequentialPhase
  setupCount : Nat
  countdownCount : Nat
  supportPrice : Option Int
  resistancePrice : Option Int
  deriving DecidableEq, Repr

/-- One output row: the `TD_Phase`, `TD_Setup_Count`, `TD_Countdown_Count`,
`TD_Support_Price`, `TD_Resistance_Price` cells of one DataFrame row. -/
structure TDRow where
  phase : TomDemarkSequentialPhase
  setupCount : Nat
  countdownCount : Nat
  supportPrice : Option Int
  resistancePrice : Option Int
  deriving DecidableEq, Repr

/-- The initial value of every output row (phase NONE, counters 0, levels NaN). -/
def defaultRow : TDRow := ⟨.NONE, 0, 0, none, none⟩

/-- The state at the start of the scan. -/
def initialState : TDState := ⟨.NONE, 0, 0, none, none⟩

/-- Constant from the source: `max_setup_count = 9`. -/
def max_setup_count : Nat := 9

/-- Constant from the source: `max_countdown_count = 13`. -/
def max_countdown_count : Nat := 13

/-- Constant from the source: `required_samples = 6`. -/
def required_samples : Nat := 6

/-- Maximum of a pandas series (`setup_bars[high_col].max()`); the scan only
applies it to a non-empty 9-bar window. -/
def seriesMax : List Int → Int
  | [] => 0
  | h :: t => t.foldl max h

/-- Minimum of a pandas series (`setup_bars[low_col].min()`). -/
def seriesMin : List Int → Int
  | [] => 0
  | h :: t => t.foldl min h

/-- `_is_buy_setup_perfect` from the source: a buy setup is perfect if bar 8 or
bar 9 of the 9-bar window (1-indexed) has a low below both the bar-6 low and
the bar-7 low. -/
def _is_buy_setup_perfect (setup_bars : List Bar) : Bool :=
  if setup_bars.length < 9 then false
  else
    let bar_6 := setup_bars.getD 5 dummyBar
    let bar_7 := setup_bars.getD 6 dummyBar
    let bar_8 := setup_bars.getD 7 dummyBar
    let bar_9 := setup_bars.getD 8 dummyBar
    (bar_8.low < bar_6.low && bar_8.low < bar_7.low) ||
      (bar_9.low < bar_6.low && bar_9.low < bar_7.low)

/-- `_is_sell_setup_perfect` from the source: symmetric to the buy case, using
highs and strict greater-than. -/
def _is_sell_setup_perfect (setup_bars : List Bar) : Bool :=
  if setup_bars.length < 9 then false
  else
    let bar_6 := setup_bars.getD 5 dummyBar
    let bar_7 := setup_bars.getD 6 dummyBar
    let bar_8 := setup_bars.getD 7 dummyBar
    let bar_9 := setup_bars.getD 8 dummyBar
    (bar_8.high > bar_6.high && bar_8.high > bar_7.high) ||
      (bar_9.high > bar_6.high && bar_9.high > bar_7.high)

/-- The `current_phase == NONE` branch of the source loop: detect a bearish
flip (enter BUY_SETUP) or, failing that, a bullish flip (enter SELL_SETUP);
otherwise leave the row at its defaults and the state unchanged. -/
def stepNone (bars : List Bar) (i : Nat) (s : TDState) : TDRow × TDState :=
  let current := bars.getD i dummyBar
  let bar_4_ago := bars.getD (i - 4) dummyBar
  if 5 ≤ i then
    let prev_bar := bars.getD (i - 1) dummyBar
    let prev_bar_4_ago := bars.getD (i - 5) dummyBar
    if prev_bar.close > prev_bar_4_ago.close ∧ current.close < bar_4_ago.close then
      ({ defaultRow with phase := .BUY_SETUP, setupCount := 1 },
       { s with currentPhase := .BUY_SETUP, setupCount := 1 })
    else if prev_bar.close < prev_bar_4_ago.close ∧ current.close > bar_4_ago.close then
      ({ defaultRow with phase := .SELL_SETUP, setupCount := 1 },
       { s with currentPhase := .SELL_SETUP, setupCount := 1 })
    else
      (defaultRow, s)
  else
    (defaultRow, s)

/-- The `current_phase == BUY_SETUP` branch of the source loop.  The window
slice `df.iloc[i - max_setup_count + 1 : i + 1]` is written with the natural
subtraction `i + 1 - max_setup_count`, which agrees with the source for every
index at which a setup can reach 9 (the count enters at 1 on a bar with
index ≥ 6, so it reaches 9 only at indices ≥ 14 > 8). -/
def stepBuySetup (bars : List Bar) (i : Nat) (s : TDState) : TDRow × TDState :=
  let current := bars.getD i dummyBar
  let bar_4_ago := bars.getD (i - 4) dummyBar
  let bar_2_ago := bars.getD (i - 2) dummyBar
  if current.close < bar_4_ago.close then
    let setup_count := s.setupCount + 1
    if setup_count = max_setup_count then
      let setup_bars := (bars.drop (i + 1 - max_setup_count)).take max_setup_count
      let is_perfect := _is_buy_setup_perfect setup_bars
      let resistance_price := seriesMax (setup_bars.map Bar.high)
      let countdown_count : Nat := if current.close < bar_2_ago.low then 1 else 0
      let phase := if is_perfect then TomDemarkSequentialPhase.BUY_SETUP_PERFECT
                   else TomDemarkSequentialPhase.BUY_SETUP
      ({ phase := phase, setupCount := setup_count, countdownCount := countdown_count,
         supportPrice := none, resistancePrice := some resistance_price },
       { s with currentPhase := .BUY_COUNTDOWN, setupCount := 0,
                countdownCount := countdown_count,
                resistancePrice := some resistance_price })
    else
      ({ defaultRow with phase := .BUY_SETUP, setupCount := setup_count },
       { s with setupCount := setup_count })
  else
    (defaultRow, { s with currentPhase := .NONE, setupCount := 0 })

/-- The `current_phase == SELL_SETUP` branch of the source loop, symmetric to
`stepBuySetup` with lows/highs and the comparisons flipped. -/
def stepSellSetup (bars : List Bar) (i : Nat) (s : TDState) : TDRow × TDState :=
  let current := bars.getD i dummyBar
  let bar_4_ago := bars.getD (i - 4) dummyBar
  let bar_2_ago := bars.getD (i - 2) dummyBar
  if current.close > bar_4_ago.close then
    let setup_count := s.setupCount + 1
    if setup_count = max_setup_count then
      let setup_bars := (bars.drop (i + 1 - max_setup_count)).take max_setup_count
      let is_perfect := _is_sell_setup_perfect setup_bars
      let support_price := seriesMin (setup_bars.map Bar.low)
      let countdown_count : Nat := if current.close > bar_2_ago.high then 1 else 0
      let phase := if is_perfect then TomDemarkSequentialPhase.SELL_SETUP_PERFECT
                   else TomDemarkSequentialPhase.SELL_SETUP
      ({ phase := phase, setupCount := setup_count, countdownCount := countdown_count,
         supportPrice := some support_price, resistancePrice := none },
       { s with currentPhase := .SELL_COUNTDOWN, setupCount := 0,
                countdownCount := countdown_count,
                supportPrice := some support_price })
    else
      ({ defaultRow with phase := .SELL_SETUP, setupCount := setup_count },
       { s with setupCount := setup_count })
  else
    (defaultRow, { s with currentPhase := .NONE, setupCount := 0 })

/-- The `current_phase == BUY_COUNTDOWN` branch of the source loop.  The
invalidation test `current.close > resistance_price` is false when the stored
resistance is NaN (`none`), matching IEEE float comparison semantics. -/
def stepBuyCountdown (bars : List Bar) (i : Nat) (s : TDState) : TDRow × TDState :=
  let current := bars.getD i dummyBar
  let bar_2_ago := bars.getD (i - 2) dummyBar
  if (s.resistancePrice.map (fun r => decide (r < current.close))).getD false then
    (defaultRow,
     { s with currentPhase := .NONE, countdownCount := 0, resistancePrice := none })
  else if current.close ≤ bar_2_ago.low then
    let countdown_count := s.countdownCount + 1
    let row : TDRow := { phase := .BUY_COUNTDOWN, setupCount := 0,
                         countdownCount := countdown_count, supportPrice := none,
                         resistancePrice := s.resistancePrice }
    if countdown_count = max_countdown_count then
      (row, { s with currentPhase := .NONE, countdownCount := 0, resistancePrice := none })
    else
      (row, { s with countdownCount := countdown_count })
  else
    ({ defaultRow with resistancePrice := s.resistancePrice }, s)

/-- The `current_phase == SELL_COUNTDOWN` branch of the source loop, symmetric
to `stepBuyCountdown` with the support level and `bar_2_ago.high`. -/
def stepSellCountdown (bars : List Bar) (i : Nat) (s : TDState) : TDRow × TDState :=
  let current := bars.getD i dummyBar
  let bar_2_ago := bars.getD (i - 2) dummyBar
  if (s.supportPrice.map (fun p => decide (current.close < p))).getD false then
    (defaultRow,
     { s with currentPhase := .NONE, countdownCount := 0, supportPrice := none })
  else if current.close ≥ bar_2_ago.high then
    let countdown_count := s.countdownCount + 1
    let row : TDRow := { phase := .SELL_COUNTDOWN, setupCount := 0,
                         countdownCount := countdown_count,
                         supportPrice := s.supportPrice, resistancePrice := none }
    if countdown_count = max_countdown_count then
      (row, { s with currentPhase := .NONE, countdownCount := 0, supportPrice := none })
    else
      (row, { s with countdownCount := countdown_count })
  else
    ({ defaultRow with supportPrice := s.supportPrice }, s)

/-- One iteration of the source loop body for a bar index `i ≥ required_samples`:
dispatch on the current phase exactly as the if/elif chain does.  A phase value
outside the five handled states matches no branch: the row keeps its defaults
and the state is untouched (such states are unreachable, as in the source). -/
def stepTD (bars : List Bar) (i : Nat) (s : TDState) : TDRow × TDState :=
  match s.currentPhase with
  | .NONE => stepNone bars i s
  | .BUY_SETUP => stepBuySetup bars i s
  | .SELL_SETUP => stepSellSetup bars i s
  | .BUY_COUNTDOWN => stepBuyCountdown bars i s
  | .SELL_COUNTDOWN => stepSellCountdown bars i s
  | .BUY_SETUP_PERFECT => (defaultRow, s)
  | .SELL_SETUP_PERFECT => (defaultRow, s)

/-- The scan loop `for i in range(len(df))`, with `n` the number of remaining
iterations: bars with `i < required_samples` are warm-up and keep the default
row; later bars run `stepTD` and thread the state. -/
def tdScanAux (bars : List Bar) : Nat → Nat → TDState → List TDRow
  | 0, _, _ => []
  | n + 1, i, s =>
    if i < required_samples then
      defaultRow :: tdScanAux bars n (i + 1) s
    else
      let p := stepTD bars i s
      p.1 :: tdScanAux bars n (i + 1) p.2

/-- The full scan of an already-ordered bar list, starting from the initial
state: one output row per bar. -/
def tdScan (bars : List Bar) : List TDRow :=
  tdScanAux bars bars.length 0 initialState

/-- The internal state just before bar `i` is processed: the initial state,
advanced once per already-processed bar (warm-up bars do not step). -/
def tdStateAt (bars : List Bar) : Nat → TDState
  | 0 => initialState
  | i + 1 =>
    if i < required_samples then tdStateAt bars i
    else (stepTD bars i (tdStateAt bars i)).2

/-- A pandas DataFrame, reduced to what the engine inspects: its column names
and its bars. -/
structure DataFrame where
  columns : List String
  bars : List Bar
  deriving DecidableEq, Repr

/-- Whether the character list `sub` starts the character list `s`. -/
def startsWithChars : List Char → List Char → Bool
  | [], _ => true
  | _ :: _, [] => false
  | a :: as, b :: bs => a == b && startsWithChars as bs

/-- Whether the character list `sub` occurs contiguously inside the second
list (Python's `sub in s`); the empty pattern occurs everywhere. -/
def containsChars (sub : List Char) : List Char → Bool
  | [] => startsWithChars sub []
  | b :: bs => startsWithChars sub (b :: bs) || containsChars sub bs

/-- The date-column detection test of the source (lines 88-89): the lowercased
name contains "date" or "timestamp", or the raw name contains "日期".
Lowercasing is modelled by mapping `Char.toLower` over the characters, which is
what `str.lower()` does on the ASCII letters the two patterns consist of. -/
def isDateLikeCol (c : String) : Bool :=
  let col_lower := c.toList.map Char.toLower
  containsChars "date".toList col_lower || containsChars "timestamp".toList col_lower ||
    containsChars "日期".toList c.toList

/-- The detection loop of the source (lines 86-91): the first column whose
name passes `isDateLikeCol`, if any (the loop breaks at the first match). -/
def findDateCol (cols : List String) : Option String :=
  cols.find? isDateLikeCol

/-- The value a column name denotes on a bar.  The model covers the
five-column schema the engine consumes (the four OHLC columns, named by the
caller, plus one date column): a name equal to a caller-supplied OHLC column
name denotes that price, and any other name denotes the bar's date cell. -/
def colValue (open_col high_col low_col close_col : String) (c : String) (b : Bar) : Int :=
  if c = open_col then b.openPrice
  else if c = high_col then b.high
  else if c = low_col then b.low
  else if c = close_col then b.close
  else b.date

/-- The `df.sort_values(by=...).reset_index(drop=True)` step (lines 93-97):
sort the bars ascending by the detected date column, or by the first column
when no date-like column exists.  Ties between equal keys are resolved by
pandas' default quicksort, which is unstable; this model uses a stable
insertion sort instead, and the theorems below rely on the sort result only
where the keys are pairwise distinct, where every correct sort — stable or
not — returns the same list. -/
def sortForScan (df : DataFrame) (open_col high_col low_col close_col : String) :
    List Bar :=
  let sort_col : String :=
    match findDateCol df.columns with
    | some dc => dc
    | none => df.columns.headD ""
  List.insertionSort
    (fun a b => colValue open_col high_col low_col close_col sort_col a ≤
                colValue open_col high_col low_col close_col sort_col b) df.bars

/-- The required-column list `[open_col, high_col, low_col, close_col]`. -/
def requiredCols (open_col high_col low_col close_col : String) : List String :=
  [open_col, high_col, low_col, close_col]

/-- The `missing_cols` list comprehension of the source: required columns not
present in the DataFrame, in required order. -/
def missingCols (df : DataFrame) (open_col high_col low_col close_col : String) :
    List String :=
  (requiredCols open_col high_col low_col close_col).filter
    (fun c => ! df.columns.contains c)

/-- `calculate_tomdemark_sequential`: sort the bars (by the detected date
column, falling back to the first column), validate that the four required
columns exist (raising `ValueError` with the missing list otherwise, modelled
as `Except.error`), then scan.  The source sorts before validating; neither
step affects the other, so the order is immaterial. -/
def calculate_tomdemark_sequential (df : DataFrame)
    (open_col high_col low_col close_col : String) :
    Except (List String) (List TDRow) :=
  let sorted := sortForScan df open_col high_col low_col close_col
  let missing_cols := missingCols df open_col high_col low_col close_col
  if missing_cols = [] then
    Except.ok (tdScan sorted)
  else
    Except.error missing_cols

/-- The bearish-flip condition of the source (`if` branch at line 140):
`prev_bar.close > prev_bar_4_ago.close and current.close < bar_4_ago.close`. -/
def buyFlipCond (bars : List Bar) (i : Nat) : Prop :=
  (bars.getD (i - 1) dummyBar).close > (bars.getD (i - 5) dummyBar).close ∧
  (bars.getD i dummyBar).close < (bars.getD (i - 4) dummyBar).close

/-- The bullish-flip condition of the source (`elif` branch at line 147):
`prev_bar.close < prev_bar_4_ago.close and current.close > bar_4_ago.close`. -/
def sellFlipCond (bars : List Bar) (i : Nat) : Prop :=
  (bars.getD (i - 1) dummyBar).close < (bars.getD (i - 5) dummyBar).close ∧
  (bars.getD i dummyBar).close > (bars.getD (i - 4) dummyBar).close

instance (bars : List Bar) (i : Nat) : Decidable (buyFlipCond bars i) := by
  unfold buyFlipCond; infer_instance

instance (bars : List Bar) (i : Nat) : Decidable (sellFlipCond bars i) := by
  unfold sellFlipCond; infer_instance

/-- Shorthand to build a bar from date, open, high, low, close. -/
def mkBar (d o h l c : Int) : Bar := ⟨d, o, h, l, c⟩

/-- Concrete falling market: nine bars whose closes fall by 1 each bar, used to
exercise a completing buy setup at index 8. -/
def exC1buy : List Bar :=
  [mkBar 0 0 110 90 100, mkBar 1 0 109 89 99, mkBar 2 0 108 88 98, mkBar 3 0 107 87 97,
   mkBar 4 0 106 86 96, mkBar 5 0 105 85 95, mkBar 6 0 104 84 94, mkBar 7 0 103 83 93,
   mkBar 8 0 102 82 92]

/-- Concrete rising market: nine bars whose closes rise by 1 each bar, used to
exercise a completing sell setup at index 8. -/
def exC1sell : List Bar :=
  [mkBar 0 0 110 90 100, mkBar 1 0 111 91 101, mkBar 2 0 112 92 102, mkBar 3 0 113 93 103,
   mkBar 4 0 114 94 104, mkBar 5 0 115 95 105, mkBar 6 0 116 96 106, mkBar 7 0 117 97 107,
   mkBar 8 0 118 98 108]

/-- Concrete series rising then dropping, producing a bearish flip at index 6. -/
def exC2bars : List Bar :=
  [mkBar 0 0 0 0 10, mkBar 1 0 0 0 11, mkBar 2 0 0 0 12, mkBar 3 0 0 0 13,
   mkBar 4 0 0 0 14, mkBar 5 0 0 0 15, mkBar 6 0 0 0 9]

/-- Concrete bars for countdown behaviour: index 6 is non-qualifying and index
7 qualifying, on both the buy side and the sell side. -/
def exC5bars : List Bar :=
  [mkBar 0 0 0 0 0, mkBar 1 0 0 0 0, mkBar 2 0 0 0 0, mkBar 3 0 0 0 0,
   mkBar 4 0 200 90 0, mkBar 5 0 70 85 0, mkBar 6 0 0 0 95, mkBar 7 0 0 0 80]

/-- Concrete falling market for the buy perfection qualifier at index 8. -/
def exC7buy : List Bar :=
  [mkBar 0 0 110 90 100, mkBar 1 0 109 89 99, mkBar 2 0 108 88 98, mkBar 3 0 107 87 97,
   mkBar 4 0 106 86 96, mkBar 5 0 105 85 95, mkBar 6 0 104 84 94, mkBar 7 0 103 83 93,
   mkBar 8 0 102 82 92]

/-- Concrete rising market for the sell perfection qualifier at index 8. -/
def exC7sell : List Bar :=
  [mkBar 0 0 110 90 100, mkBar 1 0 111 91 101, mkBar 2 0 112 92 102, mkBar 3 0 113 93 103,
   mkBar 4 0 114 94 104, mkBar 5 0 115 95 105, mkBar 6 0 116 96 106, mkBar 7 0 117 97 107,
   mkBar 8 0 118 98 108]

/-- Concrete flat series: every close equal, so neither setup test can hold. -/
def exC8bars : List Bar :=
  [mkBar 0 0 0 0 50, mkBar 1 0 0 0 50, mkBar 2 0 0 0 50, mkBar 3 0 0 0 50,
   mkBar 4 0 0 0 50, mkBar 5 0 0 0 50, mkBar 6 0 0 0 50]

/-- Concrete strictly increasing close series of the minimum scanned length. -/
def exC4bars : List Bar :=
  [mkBar 0 0 0 0 1, mkBar 1 0 0 0 2, mkBar 2 0 0 0 3, mkBar 3 0 0 0 4,
   mkBar 4 0 0 0 5, mkBar 5 0 0 0 6]

/-- Concrete flat seven-bar series used to exhibit a scanned row. -/
def exC6bars : List Bar :=
  [mkBar 0 0 0 0 0, mkBar 1 0 0 0 0, mkBar 2 0 0 0 0, mkBar 3 0 0 0 0,
   mkBar 4 0 0 0 0, mkBar 5 0 0 0 0, mkBar 6 0 0 0 0]

/-- Concrete series rising for six bars and then falling, completing a buy
setup at index 14 so that row 14 carries a resistance level. -/
def exC10bars : List Bar :=
  [mkBar 0 0 110 90 100, mkBar 1 0 111 91 101, mkBar 2 0 112 92 102, mkBar 3 0 113 93 103,
   mkBar 4 0 114 94 104, mkBar 5 0 115 95 105, mkBar 6 0 105 85 95, mkBar 7 0 104 84 94,
   mkBar 8 0 103 83 93, mkBar 9 0 102 82 92, mkBar 10 0 101 81 91, mkBar 11 0 100 80 90,
   mkBar 12 0 99 79 89, mkBar 13 0 98 78 88, mkBar 14 0 97 77 87, mkBar 15 0 96 76 86]

/-- Concrete DataFrame whose bars arrive in descending date order; its
date-sorted scan differs from the scan in caller order. -/
def exC3unsorted : DataFrame :=
  ⟨["date", "open", "high", "low", "close"],
   [mkBar 7 0 0 0 10, mkBar 6 0 0 0 11, mkBar 5 0 0 0 12, mkBar 4 0 0 0 13,
    mkBar 3 0 0 0 14, mkBar 2 0 0 0 15, mkBar 1 0 0 0 9]⟩

/-- Concrete DataFrame whose bars are already date-sorted. -/
def exC3sorted : DataFrame :=
  ⟨["date", "open", "high", "low", "close"],
   [mkBar 0 0 0 0 10, mkBar 1 0 0 0 11, mkBar 2 0 0 0 12, mkBar 3 0 0 0 13,
    mkBar 4 0 0 0 14, mkBar 5 0 0 0 15, mkBar 6 0 0 0 9]⟩

/-- Dispatch lemma: in state NONE, `stepTD` runs the flip-detection branch. -/
theorem stepTD_of_none (bars : List Bar) (i : Nat) (s : TDState)
    (h : s.currentPhase = .NONE) : stepTD bars i s = stepNone bars i s := by
  unfold stepTD; rw [h]

/-- Dispatch lemma: in state BUY_SETUP, `stepTD` runs the buy-setup branch. -/
theorem stepTD_of_buySetup (bars : List Bar) (i : Nat) (s : TDState)
    (h : s.currentPhase = .BUY_SETUP) : stepTD bars i s = stepBuySetup bars i s := by
  unfold stepTD; rw [h]

/-- Dispatch lemma: in state SELL_SETUP, `stepTD` runs the sell-setup branch. -/
theorem stepTD_of_sellSetup (bars : List Bar) (i : Nat) (s : TDState)
    (h : s.currentPhase = .SELL_SETUP) : stepTD bars i s = stepSellSetup bars i s := by
  unfold stepTD; rw [h]

/-- Dispatch lemma: in state BUY_COUNTDOWN, `stepTD` runs the buy-countdown branch. -/
theorem stepTD_of_buyCountdown (bars : List Bar) (i : Nat) (s : TDState)
    (h : s.currentPhase = .BUY_COUNTDOWN) : stepTD bars i s = stepBuyCountdown bars i s := by
  unfold stepTD; rw [h]

/-- Dispatch lemma: in state SELL_COUNTDOWN, `stepTD` runs the sell-countdown branch. -/
theorem stepTD_of_sellCountdown (bars : List Bar) (i : Nat) (s : TDState)
    (h : s.currentPhase = .SELL_COUNTDOWN) : stepTD bars i s = stepSellCountdown bars i s := by
  unfold stepTD; rw [h]

/-- The seed of a max-fold is a lower bound of the fold. -/
theorem le_foldl_max (l : List Int) (a : Int) : a ≤ l.foldl max a := by
  induction l generalizing a with
  | nil => exact le_refl a
  | cons x t ih => exact le_trans (le_max_left a x) (ih (max a x))

/-- Every element of the list is a lower bound of a max-fold over it. -/
theorem mem_le_foldl_max (l : List Int) : ∀ (a x : Int), x ∈ l → x ≤ l.foldl max a := by
  induction l with
  | nil => intro a x hx; cases hx
  | cons y t ih =>
    intro a x hx
    rcases List.mem_cons.mp hx with h | h
    · subst h
      exact le_trans (le_max_right a x) (le_foldl_max t (max a x))
    · exact ih (max a y) x h

/-- A max-fold evaluates to its seed or to an element of the list. -/
theorem foldl_max_mem (l : List Int) : ∀ a : Int, l.foldl max a = a ∨ l.foldl max a ∈ l := by
  induction l with
  | nil => intro a; exact Or.inl rfl
  | cons y t ih =>
    intro a
    rcases ih (max a y) with h | h
    · rcases max_choice a y with hc | hc
      · left
        show List.foldl max (max a y) t = a
        rw [h, hc]
      · right
        show List.foldl max (max a y) t ∈ y :: t
        rw [h, hc]
        exact List.mem_cons_self y t
    · exact Or.inr (List.mem_cons_of_mem y h)

/-- The seed of a min-fold is an upper bound of the fold. -/
theorem foldl_min_le (l : List Int) (a : Int) : l.foldl min a ≤ a := by
  induction l generalizing a with
  | nil => exact le_refl a
  | cons x t ih => exact le_trans (ih (min a x)) (min_le_left a x)

/-- A min-fold is below every element of the list. -/
theorem foldl_min_le_mem (l : List Int) : ∀ (a x : Int), x ∈ l → l.foldl min a ≤ x := by
  induction l with
  | nil => intro a x hx; cases hx
  | cons y t ih =>
    intro a x hx
    rcases List.mem_cons.mp hx with h | h
    · subst h
      exact le_trans (foldl_min_le t (min a x)) (min_le_right a x)
    · exact ih (min a y) x h

/-- A min-fold evaluates to its seed or to an element of the list. -/
theorem foldl_min_mem (l : List Int) : ∀ a : Int, l.foldl min a = a ∨ l.foldl min a ∈ l := by
  induction l with
  | nil => intro a; exact Or.inl rfl
  | cons y t ih =>
    intro a
    rcases ih (min a y) with h | h
    · rcases min_choice a y with hc | hc
      · left
        show List.foldl min (min a y) t = a
        rw [h, hc]
      · right
        show List.foldl min (min a y) t ∈ y :: t
        rw [h, hc]
        exact List.mem_cons_self y t
    · exact Or.inr (List.mem_cons_of_mem y h)

/-- `seriesMax` of a non-empty series is an element of it and bounds it above. -/
theorem seriesMax_spec (l : List Int) (hl : l ≠ []) :
    seriesMax l ∈ l ∧ ∀ x ∈ l, x ≤ seriesMax l := by
  match l with
  | [] => exact absurd rfl hl
  | h :: t =>
    constructor
    · rcases foldl_max_mem t h with he | he
      · show t.foldl max h ∈ h :: t
        rw [he]
        exact List.mem_cons_self h t
      · exact List.mem_cons_of_mem h he
    · intro x hx
      rcases List.mem_cons.mp hx with hx | hx
      · subst hx
        exact le_foldl_max t x
      · exact mem_le_foldl_max t h x hx

/-- `seriesMin` of a non-empty series is an element of it and bounds it below. -/
theorem seriesMin_spec (l : List Int) (hl : l ≠ []) :
    seriesMin l ∈ l ∧ ∀ x ∈ l, seriesMin l ≤ x := by
  match l with
  | [] => exact absurd rfl hl
  | h :: t =>
    constructor
    · rcases foldl_min_mem t h with he | he
      · show t.foldl min h ∈ h :: t
        rw [he]
        exact List.mem_cons_self h t
      · exact List.mem_cons_of_mem h he
    · intro x hx
      rcases List.mem_cons.mp hx with hx | hx
      · subst hx
        exact foldl_min_le t x
      · exact foldl_min_le_mem t h x hx

/-- The 9-bar completion window `bars[i-8 .. i]` has length 9. -/
theorem setup_window_length (bars : List Bar) (i : Nat) (h8 : 8 ≤ i) (hi : i < bars.length) :
    ((bars.drop (i + 1 - 9)).take 9).length = 9 := by
  simp only [List.length_take, List.length_drop]
  omega

/-- Position `k` of the 9-bar completion window is bar `i - 8 + k`. -/
theorem setup_window_getD (bars : List Bar) (i k : Nat) (h8 : 8 ≤ i) (hi : i < bars.length)
    (hk : k < 9) :
    ((bars.drop (i + 1 - 9)).take 9).getD k dummyBar = bars.getD (i - 8 + k) dummyBar := by
  have he : i + 1 - 9 = i - 8 := by omega
  rw [he]
  have h1 : k < ((bars.drop (i - 8)).take 9).length := by
    simp only [List.length_take, List.length_drop]
    omega
  have h2 : i - 8 + k < bars.length := by omega
  rw [List.getD_eq_getElem _ _ h1, List.getD_eq_getElem _ _ h2]
  rw [List.getElem_take, List.getElem_drop]

/-- Claim C2: from state NONE at a bar index `i ≥ required_samples`, the engine
enters BUY_SETUP with `setup_count = 1` exactly when the bearish flip holds
(`bar[i-1].close > bar[i-5].close` and `bar[i].close < bar[i-4].close`), enters
SELL_SETUP with `setup_count = 1` exactly when the bullish flip holds
(`bar[i-1].close < bar[i-5].close` and `bar[i].close > bar[i-4].close`), and
the two flip conditions can never hold simultaneously (so the buy-before-sell
check order never matters). -/
theorem c2_flip_conditions (bars : List Bar) (i : Nat) (s : TDState)
    (hphase : s.currentPhase = .NONE) (h6 : required_samples ≤ i) :
    (((stepTD bars i s).2.currentPhase = .BUY_SETUP ∧
        (stepTD bars i s).2.setupCount = 1) ↔ buyFlipCond bars i) ∧
    (((stepTD bars i s).2.currentPhase = .SELL_SETUP ∧
        (stepTD bars i s).2.setupCount = 1) ↔ sellFlipCond bars i) ∧
    ¬(buyFlipCond bars i ∧ sellFlipCond bars i) := by
  have h5 : 5 ≤ i := by
    unfold required_samples at h6
    omega
  rw [stepTD_of_none bars i s hphase]
  simp only [stepNone, buyFlipCond, sellFlipCond]
  rw [if_pos h5]
  split_ifs with h1 h2
  · refine ⟨iff_of_true ⟨rfl, rfl⟩ h1, ?_, ?_⟩
    · constructor
      · intro hc
        simp at hc
      · intro hc
        exfalso
        omega
    · rintro ⟨hb, hc⟩
      omega
  · refine ⟨?_, iff_of_true ⟨rfl, rfl⟩ h2, ?_⟩
    · constructor
      · intro hc
        simp at hc
      · intro hc
        exact absurd hc h1
    · rintro ⟨hb, hc⟩
      omega
  · refine ⟨?_, ?_, ?_⟩
    · constructor
      · intro hc
        rw [hphase] at hc
        simp at hc
      · intro hc
        exact absurd hc h1
    · constructor
      · intro hc
        rw [hphase] at hc
        simp at hc
      · intro hc
        exact absurd hc h2
    · rintro ⟨hb, hc⟩
      omega

/-- Claim C8: a setup never pauses.  In BUY_SETUP (resp. SELL_SETUP), a bar
whose close fails the qualifying comparison `close < close[4]` (resp.
`close > close[4]`) resets the engine to NONE with `setup_count = 0` on that
very bar, and the emitted row is the all-default row with phase NONE. -/
theorem c8_setup_broken_resets (bars : List Bar) (i : Nat) (s : TDState) :
    (s.currentPhase = .BUY_SETUP →
      ¬((bars.getD i dummyBar).close < (bars.getD (i - 4) dummyBar).close) →
      stepTD bars i s = (defaultRow, { s with currentPhase := .NONE, setupCount := 0 })) ∧
    (s.currentPhase = .SELL_SETUP →
      ¬((bars.getD (i - 4) dummyBar).close < (bars.getD i dummyBar).close) →
      stepTD bars i s = (defaultRow, { s with currentPhase := .NONE, setupCount := 0 })) := by
  constructor
  · intro hp hq
    rw [stepTD_of_buySetup bars i s hp]
    simp only [stepBuySetup]
    rw [if_neg hq]
  · intro hp hq
    rw [stepTD_of_sellSetup bars i s hp]
    simp only [stepSellSetup]
    rw [if_neg hq]

/-- Claim C5: a non-qualifying countdown bar.  In BUY_COUNTDOWN with stored
resistance `r`, a bar with `close ≤ r` and `close > bar[i-2].low` emits phase
NONE with countdown 0 but with the resistance still reported, and leaves the
internal state (including the countdown count) untouched; a qualifying bar
(`close ≤ r` and `close ≤ bar[i-2].low`) instead emits the countdown count
incremented from its previous value.  Symmetric in SELL_COUNTDOWN with the
support level and `bar[i-2].high`. -/
theorem c5_nonqualifying_countdown_bar (bars : List Bar) (i : Nat) (s : TDState) :
    (∀ r : Int, s.currentPhase = .BUY_COUNTDOWN → s.resistancePrice = some r →
      (bars.getD i dummyBar).close ≤ r →
      (bars.getD (i - 2) dummyBar).low < (bars.getD i dummyBar).close →
      stepTD bars i s = ({ defaultRow with resistancePrice := some r }, s)) ∧
    (∀ r : Int, s.currentPhase = .BUY_COUNTDOWN → s.resistancePrice = some r →
      (bars.getD i dummyBar).close ≤ r →
      (bars.getD i dummyBar).close ≤ (bars.getD (i - 2) dummyBar).low →
      (stepTD bars i s).1.countdownCount = s.countdownCount + 1) ∧
    (∀ p : Int, s.currentPhase = .SELL_COUNTDOWN → s.supportPrice = some p →
      p ≤ (bars.getD i dummyBar).close →
      (bars.getD i dummyBar).close < (bars.getD (i - 2) dummyBar).high →
      stepTD bars i s = ({ defaultRow with supportPrice := some p }, s)) ∧
    (∀ p : Int, s.currentPhase = .SELL_COUNTDOWN → s.supportPrice = some p →
      p ≤ (bars.getD i dummyBar).close →
      (bars.getD (i - 2) dummyBar).high ≤ (bars.getD i dummyBar).close →
      (stepTD bars i s).1.countdownCount = s.countdownCount + 1) := by
  refine ⟨?_, ?_, ?_, ?_⟩
  · intro r hp hr hle hgt
    rw [stepTD_of_buyCountdown bars i s hp]
    simp only [stepBuyCountdown, hr, Option.map_some', Option.getD_some, decide_eq_true_eq]
    rw [if_neg (not_lt.mpr hle), if_neg (not_le.mpr hgt)]
  · intro r hp hr hle hql
    rw [stepTD_of_buyCountdown bars i s hp]
    simp only [stepBuyCountdown, hr, Option.map_some', Option.getD_some, decide_eq_true_eq]
    rw [if_neg (not_lt.mpr hle), if_pos hql]
    split_ifs <;> rfl
  · intro p hp hq hle hlt
    rw [stepTD_of_sellCountdown bars i s hp]
    simp only [stepSellCountdown, hq, Option.map_some', Option.getD_some, decide_eq_true_eq]
    rw [if_neg (not_lt.mpr hle), if_neg (not_le.mpr hlt)]
  · intro p hp hq hle hql
    rw [stepTD_of_sellCountdown bars i s hp]
    simp only [stepSellCountdown, hq, Option.map_some', Option.getD_some, decide_eq_true_eq]
    rw [if_neg (not_lt.mpr hle), if_pos hql]
    split_ifs <;> rfl

/-- The fold the source uses over the 9-bar completion window attains its value
on some bar of `[i-8, i]` and bounds `f` over all bars of that range. -/
theorem seriesMax_window_isMax (bars : List Bar) (i : Nat) (f : Bar → Int)
    (h8 : 8 ≤ i) (hi : i < bars.length) :
    (∃ j, i - 8 ≤ j ∧ j ≤ i ∧
        f (bars.getD j dummyBar) = seriesMax (((bars.drop (i + 1 - 9)).take 9).map f)) ∧
    (∀ j, i - 8 ≤ j → j ≤ i →
        f (bars.getD j dummyBar) ≤ seriesMax (((bars.drop (i + 1 - 9)).take 9).map f)) := by
  have hwlen : ((bars.drop (i + 1 - 9)).take 9).length = 9 := setup_window_length bars i h8 hi
  have hne : ((bars.drop (i + 1 - 9)).take 9).map f ≠ [] := by
    intro hnil
    have hlen := congrArg List.length hnil
    rw [List.length_map, hwlen] at hlen
    cases hlen
  obtain ⟨hmem, hub⟩ := seriesMax_spec _ hne
  constructor
  · obtain ⟨b, hbw, hbh⟩ := List.mem_map.mp hmem
    obtain ⟨k, hklen, hkb⟩ := List.mem_iff_getElem.mp hbw
    have hk9 : k < 9 := hwlen ▸ hklen
    refine ⟨i - 8 + k, by omega, by omega, ?_⟩
    rw [← setup_window_getD bars i k h8 hi hk9]
    rw [List.getD_eq_getElem _ _ hklen, hkb, hbh]
  · intro j hj1 hj2
    have hk9 : j - (i - 8) < 9 := by omega
    have heq : i - 8 + (j - (i - 8)) = j := by omega
    have hgd := setup_window_getD bars i (j - (i - 8)) h8 hi hk9
    rw [heq] at hgd
    rw [← hgd]
    apply hub
    apply List.mem_map_of_mem
    have hklen : j - (i - 8) < ((bars.drop (i + 1 - 9)).take 9).length := by
      rw [hwlen]
      exact hk9
    rw [List.getD_eq_getElem _ _ hklen]
    exact List.getElem_mem hklen

/-- Dual of `seriesMax_window_isMax` for the minimum fold. -/
theorem seriesMin_window_isMin (bars : List Bar) (i : Nat) (f : Bar → Int)
    (h8 : 8 ≤ i) (hi : i < bars.length) :
    (∃ j, i - 8 ≤ j ∧ j ≤ i ∧
        f (bars.getD j dummyBar) = seriesMin (((bars.drop (i + 1 - 9)).take 9).map f)) ∧
    (∀ j, i - 8 ≤ j → j ≤ i →
        seriesMin (((bars.drop (i + 1 - 9)).take 9).map f) ≤ f (bars.getD j dummyBar)) := by
  have hwlen : ((bars.drop (i + 1 - 9)).take 9).length = 9 := setup_window_length bars i h8 hi
  have hne : ((bars.drop (i + 1 - 9)).take 9).map f ≠ [] := by
    intro hnil
    have hlen := congrArg List.length hnil
    rw [List.length_map, hwlen] at hlen
    cases hlen
  obtain ⟨hmem, hlb⟩ := seriesMin_spec _ hne
  constructor
  · obtain ⟨b, hbw, hbh⟩ := List.mem_map.mp hmem
    obtain ⟨k, hklen, hkb⟩ := List.mem_iff_getElem.mp hbw
    have hk9 : k < 9 := hwlen ▸ hklen
    refine ⟨i - 8 + k, by omega, by omega, ?_⟩
    rw [← setup_window_getD bars i k h8 hi hk9]
    rw [List.getD_eq_getElem _ _ hklen, hkb, hbh]
  · intro j hj1 hj2
    have hk9 : j - (i - 8) < 9 := by omega
    have heq : i - 8 + (j - (i - 8)) = j := by omega
    have hgd := setup_window_getD bars i (j - (i - 8)) h8 hi hk9
    rw [heq] at hgd
    rw [← hgd]
    apply hlb
    apply List.mem_map_of_mem
    have hklen : j - (i - 8) < ((bars.drop (i + 1 - 9)).take 9).length := by
      rw [hwlen]
      exact hk9
    rw [List.getD_eq_getElem _ _ hklen]
    exact List.getElem_mem hklen

/-- Claim C1: when a buy setup reaches 9 on bar `i` (state BUY_SETUP with count
8 and a qualifying close), the emitted row's resistance equals the maximum high
over bars `[i-8, i]` inclusive: it is attained on a bar of that window and
bounds every high of the window.  Symmetrically, a completing sell setup emits
a support equal to the minimum low over `[i-8, i]`, attained and bounding
below. -/
theorem c1_completion_levels (bars : List Bar) (i : Nat) (s : TDState)
    (h8 : 8 ≤ i) (hi : i < bars.length) :
    (s.currentPhase = .BUY_SETUP → s.setupCount = 8 →
      (bars.getD i dummyBar).close < (bars.getD (i - 4) dummyBar).close →
      ∃ r, (stepTD bars i s).1.resistancePrice = some r ∧
        (∃ j, i - 8 ≤ j ∧ j ≤ i ∧ (bars.getD j dummyBar).high = r) ∧
        (∀ j, i - 8 ≤ j → j ≤ i → (bars.getD j dummyBar).high ≤ r)) ∧
    (s.currentPhase = .SELL_SETUP → s.setupCount = 8 →
      (bars.getD (i - 4) dummyBar).close < (bars.getD i dummyBar).close →
      ∃ m, (stepTD bars i s).1.supportPrice = some m ∧
        (∃ j, i - 8 ≤ j ∧ j ≤ i ∧ (bars.getD j dummyBar).low = m) ∧
        (∀ j, i - 8 ≤ j → j ≤ i → m ≤ (bars.getD j dummyBar).low)) := by
  constructor
  · intro hp hcnt hq
    rw [stepTD_of_buySetup bars i s hp]
    have hrow : (stepBuySetup bars i s).1.resistancePrice
        = some (seriesMax (((bars.drop (i + 1 - 9)).take 9).map Bar.high)) := by
      simp only [stepBuySetup, max_setup_count, hcnt]
      rw [if_pos hq, if_pos trivial]
    exact ⟨_, hrow, (seriesMax_window_isMax bars i Bar.high h8 hi).1,
      (seriesMax_window_isMax bars i Bar.high h8 hi).2⟩
  · intro hp hcnt hq
    rw [stepTD_of_sellSetup bars i s hp]
    have hrow : (stepSellSetup bars i s).1.supportPrice
        = some (seriesMin (((bars.drop (i + 1 - 9)).take 9).map Bar.low)) := by
      simp only [stepSellSetup, max_setup_count, hcnt]
      rw [if_pos hq, if_pos trivial]
    exact ⟨_, hrow, (seriesMin_window_isMin bars i Bar.low h8 hi).1,
      (seriesMin_window_isMin bars i Bar.low h8 hi).2⟩

/-- On the 9-bar completion window ending at bar `i`, the buy perfection test
reads exactly bars `i-3`, `i-2`, `i-1`, `i` (window positions 6, 7, 8, 9,
1-indexed). -/
theorem buy_perfect_iff (bars : List Bar) (i : Nat) (h8 : 8 ≤ i) (hi : i < bars.length) :
    (_is_buy_setup_perfect ((bars.drop (i + 1 - 9)).take 9) = true) ↔
      (((bars.getD (i - 1) dummyBar).low < (bars.getD (i - 3) dummyBar).low ∧
        (bars.getD (i - 1) dummyBar).low < (bars.getD (i - 2) dummyBar).low) ∨
       ((bars.getD i dummyBar).low < (bars.getD (i - 3) dummyBar).low ∧
        (bars.getD i dummyBar).low < (bars.getD (i - 2) dummyBar).low)) := by
  simp only [_is_buy_setup_perfect]
  rw [if_neg (by rw [setup_window_length bars i h8 hi]; omega)]
  rw [setup_window_getD bars i 5 h8 hi (by omega), setup_window_getD bars i 6 h8 hi (by omega),
      setup_window_getD bars i 7 h8 hi (by omega), setup_window_getD bars i 8 h8 hi (by omega)]
  have e5 : i - 8 + 5 = i - 3 := by omega
  have e6 : i - 8 + 6 = i - 2 := by omega
  have e7 : i - 8 + 7 = i - 1 := by omega
  have e8 : i - 8 + 8 = i := by omega
  rw [e5, e6, e7, e8]
  simp only [Bool.or_eq_true, Bool.and_eq_true, decide_eq_true_eq]

/-- Sell-side analogue of `buy_perfect_iff`, with highs and greater-than. -/
theorem sell_perfect_iff (bars : List Bar) (i : Nat) (h8 : 8 ≤ i) (hi : i < bars.length) :
    (_is_sell_setup_perfect ((bars.drop (i + 1 - 9)).take 9) = true) ↔
      (((bars.getD (i - 3) dummyBar).high < (bars.getD (i - 1) dummyBar).high ∧
        (bars.getD (i - 2) dummyBar).high < (bars.getD (i - 1) dummyBar).high) ∨
       ((bars.getD (i - 3) dummyBar).high < (bars.getD i dummyBar).high ∧
        (bars.getD (i - 2) dummyBar).high < (bars.getD i dummyBar).high)) := by
  simp only [_is_sell_setup_perfect]
  rw [if_neg (by rw [setup_window_length bars i h8 hi]; omega)]
  rw [setup_window_getD bars i 5 h8 hi (by omega), setup_window_getD bars i 6 h8 hi (by omega),
      setup_window_getD bars i 7 h8 hi (by omega), setup_window_getD bars i 8 h8 hi (by omega)]
  have e5 : i - 8 + 5 = i - 3 := by omega
  have e6 : i - 8 + 6 = i - 2 := by omega
  have e7 : i - 8 + 7 = i - 1 := by omega
  have e8 : i - 8 + 8 = i := by omega
  rw [e5, e6, e7, e8]
  simp only [Bool.or_eq_true, Bool.and_eq_true, decide_eq_true_eq, gt_iff_lt]

/-- Claim C7: on a completing buy setup (bar `i` is bar 9 of the window), the
emitted phase is BUY_SETUP_PERFECT exactly when bar 8 or bar 9 of the window
(bars `i-1`, `i`) has a low strictly below both the bar-6 and bar-7 lows (bars
`i-3`, `i-2`); otherwise it is the plain BUY_SETUP tag.  Symmetric for a
completing sell setup with highs and strict greater-than. -/
theorem c7_perfect_variant (bars : List Bar) (i : Nat) (s : TDState)
    (h8 : 8 ≤ i) (hi : i < bars.length) :
    (s.currentPhase = .BUY_SETUP → s.setupCount = 8 →
      (bars.getD i dummyBar).close < (bars.getD (i - 4) dummyBar).close →
      (((stepTD bars i s).1.phase = .BUY_SETUP_PERFECT ↔
        (((bars.getD (i - 1) dummyBar).low < (bars.getD (i - 3) dummyBar).low ∧
          (bars.getD (i - 1) dummyBar).low < (bars.getD (i - 2) dummyBar).low) ∨
         ((bars.getD i dummyBar).low < (bars.getD (i - 3) dummyBar).low ∧
          (bars.getD i dummyBar).low < (bars.getD (i - 2) dummyBar).low))) ∧
       ((stepTD bars i s).1.phase = .BUY_SETUP_PERFECT ∨
        (stepTD bars i s).1.phase = .BUY_SETUP))) ∧
    (s.currentPhase = .SELL_SETUP → s.setupCount = 8 →
      (bars.getD (i - 4) dummyBar).close < (bars.getD i dummyBar).close →
      (((stepTD bars i s).1.phase = .SELL_SETUP_PERFECT ↔
        (((bars.getD (i - 3) dummyBar).high < (bars.getD (i - 1) dummyBar).high ∧
          (bars.getD (i - 2) dummyBar).high < (bars.getD (i - 1) dummyBar).high) ∨
         ((bars.getD (i - 3) dummyBar).high < (bars.getD i dummyBar).high ∧
          (bars.getD (i - 2) dummyBar).high < (bars.getD i dummyBar).high))) ∧
       ((stepTD bars i s).1.phase = .SELL_SETUP_PERFECT ∨
        (stepTD bars i s).1.phase = .SELL_SETUP))) := by
  constructor
  · intro hp hcnt hq
    rw [stepTD_of_buySetup bars i s hp]
    have hphase : (stepBuySetup bars i s).1.phase
        = (if _is_buy_setup_perfect ((bars.drop (i + 1 - 9)).take 9) = true
           then TomDemarkSequentialPhase.BUY_SETUP_PERFECT
           else TomDemarkSequentialPhase.BUY_SETUP) := by
      simp only [stepBuySetup, max_setup_count, hcnt]
      rw [if_pos hq, if_pos trivial]
    rw [hphase]
    by_cases hb : _is_buy_setup_perfect ((bars.drop (i + 1 - 9)).take 9) = true
    · rw [if_pos hb]
      exact ⟨iff_of_true rfl ((buy_perfect_iff bars i h8 hi).mp hb), Or.inl rfl⟩
    · rw [if_neg hb]
      refine ⟨iff_of_false (by simp) ?_, Or.inr rfl⟩
      intro hprop
      exact hb ((buy_perfect_iff bars i h8 hi).mpr hprop)
  · intro hp hcnt hq
    rw [stepTD_of_sellSetup bars i s hp]
    have hphase : (stepSellSetup bars i s).1.phase
        = (if _is_sell_setup_perfect ((bars.drop (i + 1 - 9)).take 9) = true
           then TomDemarkSequentialPhase.SELL_SETUP_PERFECT
           else TomDemarkSequentialPhase.SELL_SETUP) := by
      simp only [stepSellSetup, max_setup_count, hcnt]
      rw [if_pos hq, if_pos trivial]
    rw [hphase]
    by_cases hb : _is_sell_setup_perfect ((bars.drop (i + 1 - 9)).take 9) = true
    · rw [if_pos hb]
      exact ⟨iff_of_true rfl ((sell_perfect_iff bars i h8 hi).mp hb), Or.inl rfl⟩
    · rw [if_neg hb]
      refine ⟨iff_of_false (by simp) ?_, Or.inr rfl⟩
      intro hprop
      exact hb ((sell_perfect_iff bars i h8 hi).mpr hprop)

/-- Unfolding equation of one scan iteration. -/
theorem tdScanAux_succ (bars : List Bar) (n i : Nat) (s : TDState) :
    tdScanAux bars (n + 1) i s =
      if i < required_samples then defaultRow :: tdScanAux bars n (i + 1) s
      else (stepTD bars i s).1 :: tdScanAux bars n (i + 1) (stepTD bars i s).2 := rfl

/-- One step keeps the counter invariant: from a state with `setup_count ≤ 8`
and `countdown_count ≤ 12`, the emitted row has `setup_count ≤ 9` and
`countdown_count ≤ 13` and the next state satisfies the invariant again. -/
theorem stepTD_bounds (bars : List Bar) (i : Nat) (s : TDState)
    (hs1 : s.setupCount ≤ 8) (hs2 : s.countdownCount ≤ 12) :
    ((stepTD bars i s).1.setupCount ≤ 9 ∧ (stepTD bars i s).1.countdownCount ≤ 13) ∧
    ((stepTD bars i s).2.setupCount ≤ 8 ∧ (stepTD bars i s).2.countdownCount ≤ 12) := by
  cases hp : s.currentPhase with
  | NONE =>
    rw [stepTD_of_none bars i s hp]
    simp only [stepNone]
    split_ifs <;> simp [defaultRow] <;> omega
  | BUY_SETUP =>
    rw [stepTD_of_buySetup bars i s hp]
    simp only [stepBuySetup, max_setup_count]
    split_ifs <;> simp [defaultRow] <;> omega
  | SELL_SETUP =>
    rw [stepTD_of_sellSetup bars i s hp]
    simp only [stepSellSetup, max_setup_count]
    split_ifs <;> simp [defaultRow] <;> omega
  | BUY_COUNTDOWN =>
    rw [stepTD_of_buyCountdown bars i s hp]
    simp only [stepBuyCountdown, max_countdown_count]
    split_ifs <;> simp [defaultRow] <;> omega
  | SELL_COUNTDOWN =>
    rw [stepTD_of_sellCountdown bars i s hp]
    simp only [stepSellCountdown, max_countdown_count]
    split_ifs <;> simp [defaultRow] <;> omega
  | BUY_SETUP_PERFECT =>
    rw [show stepTD bars i s = (defaultRow, s) by unfold stepTD; rw [hp]]
    exact ⟨⟨by simp [defaultRow], by simp [defaultRow]⟩, hs1, hs2⟩
  | SELL_SETUP_PERFECT =>
    rw [show stepTD bars i s = (defaultRow, s) by unfold stepTD; rw [hp]]
    exact ⟨⟨by simp [defaultRow], by simp [defaultRow]⟩, hs1, hs2⟩

/-- Every row of the scan respects the counter bounds, by induction from any
state satisfying the invariant. -/
theorem tdScanAux_bounds (bars : List Bar) : ∀ (n i : Nat) (s : TDState),
    s.setupCount ≤ 8 → s.countdownCount ≤ 12 →
    ∀ row ∈ tdScanAux bars n i s, row.setupCount ≤ 9 ∧ row.countdownCount ≤ 13 := by
  intro n
  induction n with
  | zero =>
    intro i s _ _ row hrow
    cases hrow
  | succ n ih =>
    intro i s hs1 hs2 row hrow
    rw [tdScanAux_succ] at hrow
    split_ifs at hrow with hw
    · rcases List.mem_cons.mp hrow with h | h
      · subst h
        exact ⟨by simp [defaultRow], by simp [defaultRow]⟩
      · exact ih (i + 1) s hs1 hs2 row h
    · rcases List.mem_cons.mp hrow with h | h
      · subst h
        exact (stepTD_bounds bars i s hs1 hs2).1
      · exact ih (i + 1) (stepTD bars i s).2
          (stepTD_bounds bars i s hs1 hs2).2.1
          (stepTD_bounds bars i s hs1 hs2).2.2 row h

/-- Claim C6: every emitted row has `setup_count` in `[0, 9]` and
`countdown_count` in `[0, 13]` (the counters are naturals, so the lower bound
is inherent); in particular no bar ever reports a countdown above 13, because
a countdown reaching 13 resets the internal state on that same evaluation. -/
theorem c6_counter_bounds (bars : List Bar) (row : TDRow) (hrow : row ∈ tdScan bars) :
    row.setupCount ≤ 9 ∧ row.countdownCount ≤ 13 :=
  tdScanAux_bounds bars bars.length 0 initialState
    (by simp [initialState]) (by simp [initialState]) row hrow

/-- Every single step emits a row carrying at most one of the two levels:
either the support cell or the resistance cell is NaN. -/
theorem stepTD_row_levels (bars : List Bar) (i : Nat) (s : TDState) :
    (stepTD bars i s).1.supportPrice = none ∨ (stepTD bars i s).1.resistancePrice = none := by
  cases hp : s.currentPhase with
  | NONE =>
    rw [stepTD_of_none bars i s hp]
    simp only [stepNone]
    split_ifs <;> simp [defaultRow]
  | BUY_SETUP =>
    rw [stepTD_of_buySetup bars i s hp]
    simp only [stepBuySetup]
    split_ifs <;> simp [defaultRow]
  | SELL_SETUP =>
    rw [stepTD_of_sellSetup bars i s hp]
    simp only [stepSellSetup]
    split_ifs <;> simp [defaultRow]
  | BUY_COUNTDOWN =>
    rw [stepTD_of_buyCountdown bars i s hp]
    simp only [stepBuyCountdown]
    split_ifs <;> simp [defaultRow]
  | SELL_COUNTDOWN =>
    rw [stepTD_of_sellCountdown bars i s hp]
    simp only [stepSellCountdown]
    split_ifs <;> simp [defaultRow]
  | BUY_SETUP_PERFECT =>
    rw [show stepTD bars i s = (defaultRow, s) by unfold stepTD; rw [hp]]
    exact Or.inl rfl
  | SELL_SETUP_PERFECT =>
    rw [show stepTD bars i s = (defaultRow, s) by unfold stepTD; rw [hp]]
    exact Or.inl rfl

/-- Indexing a list at `i` is reading the head of the suffix from `i`. -/
theorem getD_eq_headD_drop {α : Type} (l : List α) (d : α) :
    ∀ i : Nat, l.getD i d = (l.drop i).headD d := by
  induction l with
  | nil => intro i; cases i <;> rfl
  | cons x t ih =>
    intro i
    cases i with
    | zero => rfl
    | succ n => exact ih n

/-- The suffix of the scan from position `i` is the scan of the remaining bars
started in the state reached just before bar `i`. -/
theorem tdScan_suffix (bars : List Bar) : ∀ i : Nat, i ≤ bars.length →
    List.drop i (tdScan bars) =
      tdScanAux bars (bars.length - i) i (tdStateAt bars i) := by
  intro i
  induction i with
  | zero =>
    intro _
    simp [tdScan, tdStateAt]
  | succ i ih =>
    intro hle
    rw [← List.tail_drop, ih (by omega)]
    have hm : bars.length - i = (bars.length - (i + 1)) + 1 := by omega
    rw [hm, tdScanAux_succ]
    by_cases hw : i < required_samples
    · rw [if_pos hw, List.tail_cons]
      congr 1
      simp [tdStateAt, hw]
    · rw [if_neg hw, List.tail_cons]
      congr 1
      simp [tdStateAt, hw]

/-- The output row at position `i`: the default row during warm-up, and the
row `stepTD` emits from the state reached before bar `i` afterwards. -/
theorem tdScan_getD_eq (bars : List Bar) (i : Nat) (hi : i < bars.length) :
    (tdScan bars).getD i defaultRow =
      if i < required_samples then defaultRow
      else (stepTD bars i (tdStateAt bars i)).1 := by
  rw [getD_eq_headD_drop, tdScan_suffix bars i (le_of_lt hi)]
  have hm : bars.length - i = (bars.length - (i + 1)) + 1 := by omega
  rw [hm, tdScanAux_succ]
  by_cases hw : i < required_samples
  · rw [if_pos hw, if_pos hw]
    rfl
  · rw [if_neg hw, if_neg hw]
    rfl

/-- A row can carry a resistance level only when its bar was processed on the
buy side of the state machine (BUY_SETUP completion or BUY_COUNTDOWN). -/
theorem stepTD_res_side (bars : List Bar) (i : Nat) (s : TDState)
    (h : (stepTD bars i s).1.resistancePrice ≠ none) :
    s.currentPhase = .BUY_SETUP ∨ s.currentPhase = .BUY_COUNTDOWN := by
  cases hp : s.currentPhase with
  | BUY_SETUP => exact Or.inl rfl
  | BUY_COUNTDOWN => exact Or.inr rfl
  | NONE =>
    exfalso
    apply h
    rw [stepTD_of_none bars i s hp]
    simp only [stepNone]
    split_ifs <;> rfl
  | SELL_SETUP =>
    exfalso
    apply h
    rw [stepTD_of_sellSetup bars i s hp]
    simp only [stepSellSetup]
    split_ifs <;> rfl
  | SELL_COUNTDOWN =>
    exfalso
    apply h
    rw [stepTD_of_sellCountdown bars i s hp]
    simp only [stepSellCountdown]
    split_ifs <;> rfl
  | BUY_SETUP_PERFECT =>
    exfalso
    apply h
    rw [show stepTD bars i s = (defaultRow, s) by unfold stepTD; rw [hp]]
    rfl
  | SELL_SETUP_PERFECT =>
    exfalso
    apply h
    rw [show stepTD bars i s = (defaultRow, s) by unfold stepTD; rw [hp]]
    rfl

/-- A row can carry a support level only when its bar was processed on the
sell side of the state machine (SELL_SETUP completion or SELL_COUNTDOWN). -/
theorem stepTD_sup_side (bars : List Bar) (i : Nat) (s : TDState)
    (h : (stepTD bars i s).1.supportPrice ≠ none) :
    s.currentPhase = .SELL_SETUP ∨ s.currentPhase = .SELL_COUNTDOWN := by
  cases hp : s.currentPhase with
  | SELL_SETUP => exact Or.inl rfl
  | SELL_COUNTDOWN => exact Or.inr rfl
  | NONE =>
    exfalso
    apply h
    rw [stepTD_of_none bars i s hp]
    simp only [stepNone]
    split_ifs <;> rfl
  | BUY_SETUP =>
    exfalso
    apply h
    rw [stepTD_of_buySetup bars i s hp]
    simp only [stepBuySetup]
    split_ifs <;> rfl
  | BUY_COUNTDOWN =>
    exfalso
    apply h
    rw [stepTD_of_buyCountdown bars i s hp]
    simp only [stepBuyCountdown]
    split_ifs <;> rfl
  | BUY_SETUP_PERFECT =>
    exfalso
    apply h
    rw [show stepTD bars i s = (defaultRow, s) by unfold stepTD; rw [hp]]
    rfl
  | SELL_SETUP_PERFECT =>
    exfalso
    apply h
    rw [show stepTD bars i s = (defaultRow, s) by unfold stepTD; rw [hp]]
    rfl

/-- Claim C10: the output row at any position carries at most one of the two
levels; a non-null resistance occurs only on a row whose bar was processed on
the buy side of the state machine (state BUY_SETUP or BUY_COUNTDOWN, past
warm-up), a non-null support only on a sell-side row (state SELL_SETUP or
SELL_COUNTDOWN, past warm-up) — so on every other row, warm-up included, both
levels are null. -/
theorem c10_levels_by_side (bars : List Bar) (i : Nat) (hi : i < bars.length) :
    (((tdScan bars).getD i defaultRow).supportPrice = none ∨
     ((tdScan bars).getD i defaultRow).resistancePrice = none) ∧
    (((tdScan bars).getD i defaultRow).resistancePrice ≠ none →
      required_samples ≤ i ∧
      ((tdStateAt bars i).currentPhase = .BUY_SETUP ∨
       (tdStateAt bars i).currentPhase = .BUY_COUNTDOWN)) ∧
    (((tdScan bars).getD i defaultRow).supportPrice ≠ none →
      required_samples ≤ i ∧
      ((tdStateAt bars i).currentPhase = .SELL_SETUP ∨
       (tdStateAt bars i).currentPhase = .SELL_COUNTDOWN)) := by
  rw [tdScan_getD_eq bars i hi]
  by_cases hw : i < required_samples
  · rw [if_pos hw]
    refine ⟨Or.inl rfl, ?_, ?_⟩
    · intro h
      exact absurd rfl h
    · intro h
      exact absurd rfl h
  · rw [if_neg hw]
    refine ⟨stepTD_row_levels bars i (tdStateAt bars i), ?_, ?_⟩
    · intro h
      exact ⟨not_lt.mp hw, stepTD_res_side bars i (tdStateAt bars i) h⟩
    · intro h
      exact ⟨not_lt.mp hw, stepTD_sup_side bars i (tdStateAt bars i) h⟩

/-- On a bar list whose closes are strictly increasing, the scan never leaves
state NONE and every row it emits has phase NONE: both flip conditions require
the previous bar's close to sit on the wrong side of its 4-bar-lagged close. -/
theorem mono_scan_stays_none (bars : List Bar)
    (hmono : List.Pairwise (fun a b : Bar => a.close < b.close) bars) :
    ∀ (n i : Nat) (s : TDState), i + n ≤ bars.length → s.currentPhase = .NONE →
      ∀ row ∈ tdScanAux bars n i s, row.phase = .NONE := by
  have hmonoD : ∀ j k : Nat, j < k → k < bars.length →
      (bars.getD j dummyBar).close < (bars.getD k dummyBar).close := by
    intro j k hjk hk
    have hj : j < bars.length := lt_trans hjk hk
    rw [List.getD_eq_getElem bars dummyBar hj, List.getD_eq_getElem bars dummyBar hk]
    exact List.pairwise_iff_getElem.mp hmono j k hj hk hjk
  intro n
  induction n with
  | zero =>
    intro i s _ _ row hrow
    cases hrow
  | succ n ih =>
    intro i s hlen hp row hrow
    rw [tdScanAux_succ] at hrow
    split_ifs at hrow with hw
    · rcases List.mem_cons.mp hrow with h | h
      · subst h
        rfl
      · exact ih (i + 1) s (by omega) hp row h
    · have hi : i < bars.length := by omega
      have h6 : required_samples ≤ i := not_lt.mp hw
      have h6' : 6 ≤ i := by
        unfold required_samples at h6
        omega
      have hstep : stepTD bars i s = (defaultRow, s) := by
        rw [stepTD_of_none bars i s hp]
        simp only [stepNone]
        rw [if_pos (show 5 ≤ i by omega)]
        split_ifs with hb hs
        · exact absurd hb.2 (not_lt.mpr (le_of_lt (hmonoD (i - 4) i (by omega) hi)))
        · exact absurd hs.1 (not_lt.mpr (le_of_lt (hmonoD (i - 5) (i - 1) (by omega) (by omega))))
        · rfl
      rcases List.mem_cons.mp hrow with h | h
      · subst h
        rw [hstep]
        rfl
      · rw [hstep] at h
        exact ih (i + 1) s (by omega) hp row h

/-- Claim C4, counterexample to its second half: there is no bar sequence with
strictly increasing closes and length at least `required_samples` on which any
row is tagged SELL_SETUP — a pure uptrend can never satisfy the bullish flip
either, since that flip needs `bar[i-1].close < bar[i-5].close`. -/
theorem c4_counterexample :
    ¬ ∃ bars : List Bar, List.Pairwise (fun a b : Bar => a.close < b.close) bars ∧
      required_samples ≤ bars.length ∧
      ∃ row ∈ tdScan bars, row.phase = .SELL_SETUP := by
  rintro ⟨bars, hmono, _, row, hrow, hphase⟩
  have := mono_scan_stays_none bars hmono bars.length 0 initialState
    (by omega) rfl row hrow
  rw [this] at hphase
  cases hphase

/-- Claim C4, amended: over every bar sequence with strictly monotonically
increasing closes (of any length, in particular length ≥ required_samples),
the engine never enters BUY_SETUP — and in fact never leaves NONE at all:
every output row has phase NONE, so no SELL_SETUP row is ever emitted either. -/
theorem c4_amended_mono_all_none (bars : List Bar)
    (hmono : List.Pairwise (fun a b : Bar => a.close < b.close) bars)
    (_hlen : required_samples ≤ bars.length)
    (row : TDRow) (hrow : row ∈ tdScan bars) : row.phase = .NONE :=
  mono_scan_stays_none bars hmono bars.length 0 initialState (by omega) rfl row hrow

/-- Claim C3, counterexample: the engine does re-sort.  On a DataFrame whose
bars arrive in descending date order, the result differs from the scan of the
bars in the order the caller supplied, so the output row at position `i` is
not computed from the caller's bar at position `i`. -/
theorem c3_counterexample :
    calculate_tomdemark_sequential exC3unsorted "open" "high" "low" "close" ≠
      Except.ok (tdScan exC3unsorted.bars) := by
  have hcalc : calculate_tomdemark_sequential exC3unsorted "open" "high" "low" "close" =
      Except.ok (tdScan (sortForScan exC3unsorted "open" "high" "low" "close")) := rfl
  rw [hcalc]
  intro h
  have h2 := Except.ok.inj h
  exact absurd h2 (by decide)

/-- Claim C3, amended: the engine re-sorts — it sorts the bars ascending by
the first date-like column (falling back to the first column when none is
detected) and scans the sorted sequence.  Only when a date-like column is
detected and the caller's bars are strictly increasing in that column is the
output row at position `i` computed from the caller's bar at position `i`
(with all required columns present).  Strictness matters: the source sorts
with pandas' unstable default quicksort, so with tied keys the caller's order
need not survive; on pairwise-distinct keys every correct sort returns the
input unchanged, so the conclusion is independent of the sorting algorithm. -/
theorem c3_amended_sorted_input_not_reordered (df : DataFrame)
    (open_col high_col low_col close_col : String) (dc : String)
    (hdc : findDateCol df.columns = some dc)
    (hsorted : List.Pairwise
      (fun a b : Bar => colValue open_col high_col low_col close_col dc a <
                        colValue open_col high_col low_col close_col dc b) df.bars)
    (hcols : missingCols df open_col high_col low_col close_col = []) :
    calculate_tomdemark_sequential df open_col high_col low_col close_col =
      Except.ok (tdScan df.bars) := by
  simp only [calculate_tomdemark_sequential, sortForScan, hdc]
  rw [if_pos hcols]
  have hsorted2 : List.Pairwise
      (fun a b : Bar => colValue open_col high_col low_col close_col dc a ≤
                        colValue open_col high_col low_col close_col dc b) df.bars :=
    List.Pairwise.imp (fun h => le_of_lt h) hsorted
  rw [List.Sorted.insertionSort_eq hsorted2]

/-- Witness for the amended C3 at a concrete DataFrame with a detected date
column and strictly increasing dates. -/
theorem c3_amended_witness :
    (findDateCol exC3sorted.columns = some "date" ∧
     List.Pairwise
       (fun a b : Bar => colValue "open" "high" "low" "close" "date" a <
                         colValue "open" "high" "low" "close" "date" b) exC3sorted.bars ∧
     missingCols exC3sorted "open" "high" "low" "close" = []) ∧
    calculate_tomdemark_sequential exC3sorted "open" "high" "low" "close" =
      Except.ok (tdScan exC3sorted.bars) :=
  ⟨⟨by decide, by decide, by decide⟩,
   c3_amended_sorted_input_not_reordered exC3sorted "open" "high" "low" "close" "date"
     (by decide) (by decide) (by decide)⟩

/-- Witness for C1 at concrete completing setups: a buy completion on the
falling series and a sell completion on the rising series. -/
theorem c1_witness :
    ((⟨.BUY_SETUP, 8, 0, none, none⟩ : TDState).currentPhase = .BUY_SETUP ∧
     (exC1buy.getD 8 dummyBar).close < (exC1buy.getD 4 dummyBar).close) ∧
    (∃ r, (stepTD exC1buy 8 ⟨.BUY_SETUP, 8, 0, none, none⟩).1.resistancePrice = some r ∧
      (∃ j, 8 - 8 ≤ j ∧ j ≤ 8 ∧ (exC1buy.getD j dummyBar).high = r) ∧
      (∀ j, 8 - 8 ≤ j → j ≤ 8 → (exC1buy.getD j dummyBar).high ≤ r)) ∧
    (∃ m, (stepTD exC1sell 8 ⟨.SELL_SETUP, 8, 0, none, none⟩).1.supportPrice = some m ∧
      (∃ j, 8 - 8 ≤ j ∧ j ≤ 8 ∧ (exC1sell.getD j dummyBar).low = m) ∧
      (∀ j, 8 - 8 ≤ j → j ≤ 8 → m ≤ (exC1sell.getD j dummyBar).low)) := by
  refine ⟨⟨rfl, by decide⟩, ?_, ?_⟩
  · exact (c1_completion_levels exC1buy 8 ⟨.BUY_SETUP, 8, 0, none, none⟩
      (by decide) (by decide)).1 rfl rfl (by decide)
  · exact (c1_completion_levels exC1sell 8 ⟨.SELL_SETUP, 8, 0, none, none⟩
      (by decide) (by decide)).2 rfl rfl (by decide)

/-- Witness for C2 at the concrete bearish-flip series. -/
theorem c2_witness :
    (initialState.currentPhase = .NONE ∧ required_samples ≤ 6) ∧
    ((((stepTD exC2bars 6 initialState).2.currentPhase = .BUY_SETUP ∧
        (stepTD exC2bars 6 initialState).2.setupCount = 1) ↔ buyFlipCond exC2bars 6) ∧
     (((stepTD exC2bars 6 initialState).2.currentPhase = .SELL_SETUP ∧
        (stepTD exC2bars 6 initialState).2.setupCount = 1) ↔ sellFlipCond exC2bars 6) ∧
     ¬(buyFlipCond exC2bars 6 ∧ sellFlipCond exC2bars 6)) :=
  ⟨⟨rfl, by decide⟩, c2_flip_conditions exC2bars 6 initialState rfl (by decide)⟩

/-- Witness for the amended C4 at the concrete strictly increasing series. -/
theorem c4_amended_witness :
    (List.Pairwise (fun a b : Bar => a.close < b.close) exC4bars ∧
     required_samples ≤ exC4bars.length ∧ defaultRow ∈ tdScan exC4bars) ∧
    defaultRow.phase = .NONE :=
  ⟨⟨by decide, by decide, by decide⟩,
   c4_amended_mono_all_none exC4bars (by decide) (by decide) defaultRow (by decide)⟩

/-- Witness for C5 at concrete countdown states: non-qualifying at index 6,
qualifying at index 7, on both sides. -/
theorem c5_witness :
    (stepTD exC5bars 6 ⟨.BUY_COUNTDOWN, 0, 3, none, some 100⟩ =
      ({ defaultRow with resistancePrice := some 100 },
       ⟨.BUY_COUNTDOWN, 0, 3, none, some 100⟩)) ∧
    ((stepTD exC5bars 7 ⟨.BUY_COUNTDOWN, 0, 3, none, some 100⟩).1.countdownCount = 3 + 1) ∧
    (stepTD exC5bars 6 ⟨.SELL_COUNTDOWN, 0, 5, some 10, none⟩ =
      ({ defaultRow with supportPrice := some 10 },
       ⟨.SELL_COUNTDOWN, 0, 5, some 10, none⟩)) ∧
    ((stepTD exC5bars 7 ⟨.SELL_COUNTDOWN, 0, 5, some 10, none⟩).1.countdownCount = 5 + 1) := by
  refine ⟨?_, ?_, ?_, ?_⟩
  · exact (c5_nonqualifying_countdown_bar exC5bars 6 ⟨.BUY_COUNTDOWN, 0, 3, none, some 100⟩).1
      100 rfl rfl (by decide) (by decide)
  · exact (c5_nonqualifying_countdown_bar exC5bars 7 ⟨.BUY_COUNTDOWN, 0, 3, none, some 100⟩).2.1
      100 rfl rfl (by decide) (by decide)
  · exact (c5_nonqualifying_countdown_bar exC5bars 6 ⟨.SELL_COUNTDOWN, 0, 5, some 10, none⟩).2.2.1
      10 rfl rfl (by decide) (by decide)
  · exact (c5_nonqualifying_countdown_bar exC5bars 7 ⟨.SELL_COUNTDOWN, 0, 5, some 10, none⟩).2.2.2
      10 rfl rfl (by decide) (by decide)

/-- Witness for C6 at a concrete scanned row. -/
theorem c6_witness :
    (defaultRow ∈ tdScan exC6bars) ∧
    defaultRow.setupCount ≤ 9 ∧ defaultRow.countdownCount ≤ 13 :=
  ⟨by decide, c6_counter_bounds exC6bars defaultRow (by decide)⟩

/-- Witness for C7 at concrete perfect completions on both sides. -/
theorem c7_witness :
    (stepTD exC7buy 8 ⟨.BUY_SETUP, 8, 0, none, none⟩).1.phase = .BUY_SETUP_PERFECT ∧
    (stepTD exC7sell 8 ⟨.SELL_SETUP, 8, 0, none, none⟩).1.phase = .SELL_SETUP_PERFECT := by
  constructor
  · exact ((c7_perfect_variant exC7buy 8 ⟨.BUY_SETUP, 8, 0, none, none⟩
      (by decide) (by decide)).1 rfl rfl (by decide)).1.mpr (by decide)
  · exact ((c7_perfect_variant exC7sell 8 ⟨.SELL_SETUP, 8, 0, none, none⟩
      (by decide) (by decide)).2 rfl rfl (by decide)).1.mpr (by decide)

/-- Witness for C8 at a concrete flat series, where neither setup test holds. -/
theorem c8_witness :
    (stepTD exC8bars 6 ⟨.BUY_SETUP, 3, 0, none, none⟩ =
      (defaultRow, ⟨.NONE, 0, 0, none, none⟩)) ∧
    (stepTD exC8bars 6 ⟨.SELL_SETUP, 3, 0, none, none⟩ =
      (defaultRow, ⟨.NONE, 0, 0, none, none⟩)) := by
  constructor
  · exact (c8_setup_broken_resets exC8bars 6 ⟨.BUY_SETUP, 3, 0, none, none⟩).1 rfl (by decide)
  · exact (c8_setup_broken_resets exC8bars 6 ⟨.SELL_SETUP, 3, 0, none, none⟩).2 rfl (by decide)

/-- Witness for C10 at the row where the concrete buy setup completes: its
resistance is non-null, it carries no support, and the theorem attributes it
to the buy side of the state machine. -/
theorem c10_side_witness :
    (14 < exC10bars.length ∧
     ((tdScan exC10bars).getD 14 defaultRow).resistancePrice ≠ none) ∧
    (((tdScan exC10bars).getD 14 defaultRow).supportPrice = none ∨
     ((tdScan exC10bars).getD 14 defaultRow).resistancePrice = none) ∧
    (required_samples ≤ 14 ∧
     ((tdStateAt exC10bars 14).currentPhase = .BUY_SETUP ∨
      (tdStateAt exC10bars 14).currentPhase = .BUY_COUNTDOWN)) := by
  refine ⟨⟨by decide, by decide⟩, ?_, ?_⟩
  · exact (c10_levels_by_side exC10bars 14 (by decide)).1
  · exact (c10_levels_by_side exC10bars 14 (by decide)).2.1 (by decide)
